import Mathlib

/-
  Verification development for the git-db document-store engine.

  This file gives a shallow embedding, in Lean, of the core of the
  engine: the in-memory CRUD/bulk operations with their collection
  cache (src/core/GitDB.js), the lock-acquisition loop
  (src/utils/LockManager.js), the GitHub snapshot-medium write path
  (src/storage/GitHubStorage.js), the history reconstruction and
  statistics code (src/utils/HistoryManager.js), the validation layer
  (src/utils/ValidationManager.js) and the CSV codec
  (src/formats/CSVFormat.js).

  JavaScript values are embedded as the inductive type `Value`
  (null, undefined, booleans, numbers, strings, arrays, objects);
  number literals occurring in the claims are integral, so numbers are
  embedded as `Int`.  JavaScript objects are embedded as ordered
  association lists with unique keys; property access, assignment and
  spread are given their JavaScript semantics on that representation.
  Asynchrony plays no semantic role in the embedded fragment (every
  operation awaits each step in order), so the operations are embedded
  as pure state-passing functions.  Randomness (crypto.randomUUID) and
  the clock (Date.now, toISOString) are passed in as arguments.
-/

/-- Embedded JavaScript value: null, undefined, boolean, number
(integral), string, array, or object (ordered fields). -/
inductive Value where
  | vNull
  | vUndefined
  | vBool (b : Bool)
  | vNum (n : Int)
  | vStr (s : String)
  | vArr (elems : List Value)
  | vObj (fields : List (String × Value))
deriving Repr

mutual

/-- Structural equality test for embedded values. -/
def beqV : Value → Value → Bool
  | .vNull, .vNull => true
  | .vUndefined, .vUndefined => true
  | .vBool a, .vBool b => a = b
  | .vNum a, .vNum b => a = b
  | .vStr a, .vStr b => a = b
  | .vArr a, .vArr b => beqL a b
  | .vObj a, .vObj b => beqF a b
  | _, _ => false

/-- Structural equality test for lists of embedded values. -/
def beqL : List Value → List Value → Bool
  | [], [] => true
  | a :: as, b :: bs => beqV a b && beqL as bs
  | _, _ => false

/-- Structural equality test for field lists of embedded objects. -/
def beqF : List (String × Value) → List (String × Value) → Bool
  | [], [] => true
  | (k, v) :: as, (k2, v2) :: bs => k = k2 && beqV v v2 && beqF as bs
  | _, _ => false

end

mutual

theorem beqV_iff : ∀ a b : Value, beqV a b = true ↔ a = b
  | .vNull, b => by cases b <;> simp [beqV]
  | .vUndefined, b => by cases b <;> simp [beqV]
  | .vBool x, b => by cases b <;> simp [beqV]
  | .vNum x, b => by cases b <;> simp [beqV]
  | .vStr x, b => by cases b <;> simp [beqV]
  | .vArr xs, b => by
      cases b <;> simp [beqV]
      exact beqL_iff xs _
  | .vObj fs, b => by
      cases b <;> simp [beqV]
      exact beqF_iff fs _

theorem beqL_iff : ∀ a b : List Value, beqL a b = true ↔ a = b
  | [], b => by cases b <;> simp [beqL]
  | x :: xs, b => by
      cases b with
      | nil => simp [beqL]
      | cons y ys =>
          simp only [beqL, Bool.and_eq_true, List.cons.injEq]
          rw [beqV_iff, beqL_iff]

theorem beqF_iff : ∀ a b : List (String × Value), beqF a b = true ↔ a = b
  | [], b => by cases b <;> simp [beqF]
  | (k, v) :: xs, b => by
      cases b with
      | nil => simp [beqF]
      | cons y ys =>
          obtain ⟨k2, v2⟩ := y
          simp only [beqF, Bool.and_eq_true, List.cons.injEq, Prod.mk.injEq,
            decide_eq_true_eq]
          rw [beqV_iff, beqF_iff]

end

instance : DecidableEq Value := fun a b =>
  decidable_of_iff _ (beqV_iff a b)

/-- A JavaScript object: an ordered association list of fields. -/
abbrev Obj := List (String × Value)

/-- A parsed data file: collection name to array of records
(the `data` object GitDB.readDataFile returns). -/
abbrev Database := List (String × List Obj)

/-- Key lookup in an association list (first match), as JavaScript
property lookup on objects with unique keys. -/
def lookupA {α : Type} : List (String × α) → String → Option α
  | [], _ => none
  | (k, v) :: tl, key => if k = key then some v else lookupA tl key

/-- Key assignment in an association list: replaces the value at the
first occurrence of the key in place, else appends, as JavaScript
property assignment preserves key order. -/
def setA {α : Type} : List (String × α) → String → α → List (String × α)
  | [], key, v => [(key, v)]
  | (k, w) :: tl, key, v =>
      if k = key then (key, v) :: tl else (k, w) :: setA tl key v

/-- Key removal from an association list, as the JavaScript `delete`
operator on an object property. -/
def removeA {α : Type} : List (String × α) → String → List (String × α)
  | [], _ => []
  | (k, w) :: tl, key => if k = key then tl else (k, w) :: removeA tl key

/-- JavaScript property access `o[k]`: the stored value, or undefined
when the key is absent. -/
def oget (o : Obj) (k : String) : Value :=
  (lookupA o k).getD .vUndefined

/-- JavaScript property write / object-literal field: `setA` on objects. -/
def oset (o : Obj) (k : String) (v : Value) : Obj :=
  setA o k v

/-- JavaScript object spread `{...a, ...b}`: the fields of `b` written
over `a` in order. -/
def ospread (a b : Obj) : Obj :=
  b.foldl (fun acc kv => oset acc kv.1 kv.2) a

/-- JavaScript truthiness of an embedded value. -/
def truthy : Value → Bool
  | .vNull => false
  | .vUndefined => false
  | .vBool b => b
  | .vNum n => n != 0
  | .vStr s => s ≠ ""
  | .vArr _ => true
  | .vObj _ => true

theorem lookupA_setA_self {α : Type} (l : List (String × α)) (k : String) (v : α) :
    lookupA (setA l k v) k = some v := by
  induction l with
  | nil => simp [lookupA, setA]
  | cons hd tl ih =>
      obtain ⟨k0, v0⟩ := hd
      by_cases h : k0 = k <;> simp [lookupA, setA, h, ih]

theorem lookupA_setA_ne {α : Type} (l : List (String × α)) (k k' : String) (v : α)
    (h : k ≠ k') : lookupA (setA l k v) k' = lookupA l k' := by
  induction l with
  | nil => simp [lookupA, setA, h]
  | cons hd tl ih =>
      obtain ⟨k0, v0⟩ := hd
      by_cases h0 : k0 = k
      · subst h0
        simp [lookupA, setA, h]
      · simp [lookupA, setA, h0, ih]

theorem oget_oset_self (o : Obj) (k : String) (v : Value) :
    oget (oset o k v) k = v := by
  simp [oget, oset, lookupA_setA_self]

theorem oget_oset_ne (o : Obj) (k k' : String) (v : Value) (h : k ≠ k') :
    oget (oset o k v) k' = oget o k' := by
  simp [oget, oset, lookupA_setA_ne _ _ _ _ h]

/-- JSON string escaping as performed by JSON.stringify: quote and
backslash are escaped, the named control characters use their short
escapes, other control characters use a unicode escape. -/
def escapeChar (c : Char) : String :=
  if c = '"' then "\\\""
  else if c = '\\' then "\\\\"
  else if c = '\n' then "\\n"
  else if c = '\t' then "\\t"
  else if c = '\r' then "\\r"
  else if c.toNat < 32 then
    "\\u00" ++ String.mk [(Nat.digitChar (c.toNat / 16)), (Nat.digitChar (c.toNat % 16))]
  else String.mk [c]

/-- JSON string literal for an embedded string. -/
def quoteStr (s : String) : String :=
  "\"" ++ String.join (s.toList.map escapeChar) ++ "\""

mutual

/-- JSON.stringify of an embedded value (compact form, as
JSON.stringify(x) with no indent argument).  An undefined value renders
as the sentinel "undefined": the only uses in the embedded code compare
two such strings or build cache keys, and there undefined never meets a
string that JSON.stringify could produce. -/
def stringifyV : Value → String
  | .vNull => "null"
  | .vUndefined => "undefined"
  | .vBool b => if b then "true" else "false"
  | .vNum n => toString n
  | .vStr s => quoteStr s
  | .vArr es => "[" ++ stringifyArr es ++ "]"
  | .vObj fs => "\x7b" ++ stringifyFields fs ++ "\x7d"

/-- Comma-joined JSON.stringify of array elements (undefined element
renders as null, as JSON.stringify does inside arrays). -/
def stringifyArr : List Value → String
  | [] => ""
  | [v] => (match v with | .vUndefined => "null" | _ => stringifyV v)
  | v :: rest =>
      (match v with | .vUndefined => "null" | _ => stringifyV v) ++ "," ++ stringifyArr rest

/-- Comma-joined JSON.stringify of object fields (fields with an
undefined value are dropped, as JSON.stringify does). -/
def stringifyFields : List (String × Value) → String
  | [] => ""
  | (k, v) :: rest =>
      match v with
      | .vUndefined => stringifyFields rest
      | _ =>
          let entry := quoteStr k ++ ":" ++ stringifyV v
          match stringifyFields rest with
          | "" => entry
          | r => entry ++ "," ++ r

end

mutual

/-- The JavaScript String() coercion of an embedded value, as applied
by Array.prototype.join when CSV lines are assembled. -/
def jsToString : Value → String
  | .vNull => "null"
  | .vUndefined => "undefined"
  | .vBool b => if b then "true" else "false"
  | .vNum n => toString n
  | .vStr s => s
  | .vArr es => jsJoinArr es
  | .vObj _ => "[object Object]"

/-- Array.prototype.join with the default comma separator: null and
undefined elements become the empty string. -/
def jsJoinArr : List Value → String
  | [] => ""
  | [v] => (match v with | .vNull => "" | .vUndefined => "" | _ => jsToString v)
  | v :: rest =>
      (match v with | .vNull => "" | .vUndefined => "" | _ => jsToString v) ++ "," ++ jsJoinArr rest

end

/-- Configuration consumed by the embedded GitDB core: GitDB defaults
cacheTimeout to 300000 ms; ValidationManager defaults requiredFields
to ["id"] (fieldTypes and customValidators default to empty maps, so
with the default configuration embedded here they check nothing). -/
structure Config where
  cacheTimeout : Nat := 300000
  requiredFields : List String := ["id"]

/-- One entry of the GitDB read cache: `\x7b data, timestamp \x7d`. -/
structure CacheEntry where
  data : List Obj
  timestamp : Nat
deriving Repr, DecidableEq

/-- The persistent state an embedded GitDB operation acts on: the
parsed content of the data file held by the storage backend, and the
in-process read cache (this.cache).  Each operation re-reads and
re-parses the file (readDataFile), so the only heap that survives
between operations is the cache. -/
structure DBState where
  stored : Database
  cache : List (String × CacheEntry)
deriving Repr, DecidableEq

/-- Errors thrown by the embedded operations (§7 taxonomy: the source
throws plain Error objects whose messages distinguish the cases). -/
inductive DBError where
  | notFound (what : String)
  | validationError (what : String)
deriving Repr, DecidableEq

/-- ValidationManager.validateItem under the default configuration:
every required field must be a present key (hasOwnProperty). -/
def validateItem (cfg : Config) (item : Obj) : Except DBError Unit :=
  if cfg.requiredFields.all (fun f => (lookupA item f).isSome) then .ok ()
  else .error (.validationError "required field missing")

/-- The cache key `collection + "-" + JSON.stringify(query)` used by
GitDB.read; equality queries are embedded as field lists. -/
def cacheKey (collection : String) (query : Obj) : String :=
  collection ++ "-" ++ stringifyV (.vObj query)

/-- GitDB.clearCache: delete every cache entry whose key starts with
`collection + "-"`.  String.startsWith is modeled as list prefix. -/
def jsStartsWith (s pre : String) : Bool :=
  List.isPrefixOf pre.toList s.toList

/-- GitDB.clearCache over the embedded cache. -/
def clearCache (cache : List (String × CacheEntry)) (collection : String) :
    List (String × CacheEntry) :=
  cache.filter (fun e => ¬ jsStartsWith e.1 (collection ++ "-"))

/-- The filter GitDB.read applies when the query object is non-empty:
every query entry must strictly equal the record field (the
function-valued query branch is not exercised by the claims and is not
modeled). -/
def readFilter (items : List Obj) (query : Obj) : List Obj :=
  if query.isEmpty then items
  else items.filter (fun item => query.all (fun kv => oget item kv.1 = kv.2))

/-- GitDB.read: serve a cached result when present and younger than
cacheTimeout; otherwise read the data file, return [] early for a
missing collection, else filter, cache and return the items.  `now` is
Date.now().  The result aliases the cache entry stored under the key
(Array references are shared in the source; the embedding makes the
effect of later in-place mutation explicit at each mutation site). -/
def readOp (cfg : Config) (st : DBState) (now : Nat) (collection : String)
    (query : Obj) : List Obj × DBState :=
  let key := cacheKey collection query
  match lookupA st.cache key with
  | some cached =>
      if now - cached.timestamp < cfg.cacheTimeout then (cached.data, st)
      else readMiss st now collection query key
  | none => readMiss st now collection query key
where
  /-- The cache-miss path of GitDB.read. -/
  readMiss (st : DBState) (now : Nat) (collection : String)
      (query : Obj) (key : String) : List Obj × DBState :=
    match lookupA st.stored collection with
    | none => ([], st)
    | some items =>
        let res := readFilter items query
        (res, { st with cache := setA st.cache key ⟨res, now⟩ })

/-- GitDB.readById: read with the query `\x7b id \x7d` and take the first
item, or null (none) when there is no match. -/
def readByIdOp (cfg : Config) (st : DBState) (now : Nat) (collection id : String) :
    Option Obj × DBState :=
  let (items, st1) := readOp cfg st now collection [("id", .vStr id)]
  (items.head?, st1)

/-- GitDB.create: read the data file, initialize the collection when
absent, generate an id when item.id is falsy (crypto.randomUUID is
passed in as newId), stamp createdAt/updatedAt with the ISO clock
value, validate, push, and write the file.  The cache is not touched
by create in the source. -/
def createOp (cfg : Config) (st : DBState) (nowIso : String) (newId : String)
    (collection : String) (item : Obj) : Except DBError (Obj × DBState) := do
  let data := st.stored
  let data := if (lookupA data collection).isNone then setA data collection [] else data
  let item := if ¬ truthy (oget item "id") then oset item "id" (.vStr newId) else item
  let item := oset item "createdAt" (.vStr nowIso)
  let item := oset item "updatedAt" (.vStr nowIso)
  validateItem cfg item
  let data := setA data collection (((lookupA data collection).getD []) ++ [item])
  return (item, { st with stored := data })

/-- The record findIndex predicate `item.id === id` used by update and
delete. -/
def idMatches (id : String) (item : Obj) : Bool :=
  oget item "id" = .vStr id

/-- GitDB.update: NotFound when the collection or the record id is
missing; otherwise merge `\x7b...originalItem, ...updates, id, createdAt,
updatedAt\x7d`, validate, store at the same index, write, and clear the
cache for the collection. -/
def updateOp (cfg : Config) (st : DBState) (nowIso : String)
    (collection id : String) (updates : Obj) : Except DBError (Obj × DBState) := do
  match lookupA st.stored collection with
  | none => throw (.notFound ("Collection " ++ collection ++ " not found"))
  | some items =>
      match items.findIdx? (idMatches id) with
      | none => throw (.notFound ("Item " ++ id ++ " not found in " ++ collection))
      | some itemIndex =>
          let originalItem := items.getD itemIndex []
          let updatedItem :=
            oset (oset (oset (ospread originalItem updates)
              "id" (oget originalItem "id"))
              "createdAt" (oget originalItem "createdAt"))
              "updatedAt" (.vStr nowIso)
          validateItem cfg updatedItem
          let data := setA st.stored collection (items.set itemIndex updatedItem)
          return (updatedItem, ⟨data, clearCache st.cache collection⟩)

/-- GitDB.delete: NotFound when the collection or the record id is
missing; otherwise splice the record out, write, and clear the cache
for the collection. -/
def deleteOp (st : DBState) (collection id : String) :
    Except DBError (Obj × DBState) :=
  match lookupA st.stored collection with
  | none => throw (.notFound ("Collection " ++ collection ++ " not found"))
  | some items =>
      match items.findIdx? (idMatches id) with
      | none => throw (.notFound ("Item " ++ id ++ " not found in " ++ collection))
      | some itemIndex =>
          let deletedItem := items.getD itemIndex []
          let data := setA st.stored collection (items.eraseIdx itemIndex)
          .ok (deletedItem, ⟨data, clearCache st.cache collection⟩)

/-- GitDB.deleteCollection: NotFound when the collection is missing;
otherwise delete the key, write, and clear the cache for it. -/
def deleteCollectionOp (st : DBState) (collection : String) :
    Except DBError (List Obj × DBState) :=
  match lookupA st.stored collection with
  | none => throw (.notFound ("Collection " ++ collection ++ " not found"))
  | some items =>
      .ok (items, ⟨removeA st.stored collection, clearCache st.cache collection⟩)

/-- One request of a GitDB.bulkOperation batch: the source destructures
`\x7b type, collection, ...params \x7d`; unknown types produce a failed
per-operation result.  For create requests the generated id
(crypto.randomUUID) is passed in as newId. -/
inductive BulkRequest where
  | createReq (collection : String) (item : Obj) (newId : String)
  | updateReq (collection id : String) (updates : Obj)
  | deleteReq (collection id : String)
  | otherReq (typeName collection : String)
deriving Repr

/-- The collection a bulk request names (used for cache clearing). -/
def BulkRequest.coll : BulkRequest → String
  | .createReq c _ _ => c
  | .updateReq c _ _ => c
  | .deleteReq c _ => c
  | .otherReq _ c => c

/-- One per-operation result pushed by GitDB.bulkOperation. -/
structure BulkResult where
  typeName : String
  success : Bool
  item : Option Obj
  errMsg : Option String
deriving Repr, DecidableEq

/-- The body of the per-operation loop of GitDB.bulkOperation.  A
validation failure throws and aborts the whole batch before any write;
a missing collection or record id only yields a failed per-operation
result. -/
def bulkStep (cfg : Config) (nowIso : String) (acc : Database × List BulkResult)
    (op : BulkRequest) : Except DBError (Database × List BulkResult) := do
  let (data, results) := acc
  match op with
  | .createReq collection item newId =>
      let data := if (lookupA data collection).isNone then setA data collection [] else data
      let newItem :=
        oset (oset (oset item
          "id" (if truthy (oget item "id") then oget item "id" else .vStr newId))
          "createdAt" (.vStr nowIso))
          "updatedAt" (.vStr nowIso)
      validateItem cfg newItem
      let data := setA data collection (((lookupA data collection).getD []) ++ [newItem])
      return (data, results ++ [⟨"create", true, some newItem, none⟩])
  | .updateReq collection id updates =>
      match lookupA data collection with
      | none => return (data, results ++ [⟨"update", false, none, some "Collection not found"⟩])
      | some items =>
          match items.findIdx? (idMatches id) with
          | none => return (data, results ++ [⟨"update", false, none, some "Item not found"⟩])
          | some itemIndex =>
              let originalItem := items.getD itemIndex []
              let updatedItem :=
                oset (oset (oset (ospread originalItem updates)
                  "id" (oget originalItem "id"))
                  "createdAt" (oget originalItem "createdAt"))
                  "updatedAt" (.vStr nowIso)
              validateItem cfg updatedItem
              let data := setA data collection (items.set itemIndex updatedItem)
              return (data, results ++ [⟨"update", true, some updatedItem, none⟩])
  | .deleteReq collection id =>
      match lookupA data collection with
      | none => return (data, results ++ [⟨"delete", false, none, some "Collection not found"⟩])
      | some items =>
          match items.findIdx? (idMatches id) with
          | none => return (data, results ++ [⟨"delete", false, none, some "Item not found"⟩])
          | some deleteIndex =>
              let deletedItem := items.getD deleteIndex []
              let data := setA data collection (items.eraseIdx deleteIndex)
              return (data, results ++ [⟨"delete", true, some deletedItem, none⟩])
  | .otherReq typeName _ =>
      return (data, results ++ [⟨typeName, false, none, some "Unknown operation type"⟩])

/-- GitDB.bulkOperation: apply every request to one in-memory data
object, write once, then clear the cache for every affected collection
(the source deduplicates the collection list first; folding clearCache
over all requests has the same effect). -/
def bulkOp (cfg : Config) (st : DBState) (nowIso : String)
    (ops : List BulkRequest) : Except DBError (List BulkResult × DBState) := do
  let (data, results) ← ops.foldlM (bulkStep cfg nowIso) (st.stored, [])
  let cache := ops.foldl (fun c op => clearCache c op.coll) st.cache
  return (results, ⟨data, cache⟩)

/-- GitDB.filter: read then Array.prototype.filter (returns a fresh
array). -/
def filterOp (cfg : Config) (st : DBState) (now : Nat) (collection : String)
    (p : Obj → Bool) : List Obj × DBState :=
  let (items, st1) := readOp cfg st now collection []
  (items.filter p, st1)

/-- GitDB.find: read then Array.prototype.find. -/
def findOp (cfg : Config) (st : DBState) (now : Nat) (collection : String)
    (p : Obj → Bool) : Option Obj × DBState :=
  let (items, st1) := readOp cfg st now collection []
  (items.find? p, st1)

/-- GitDB.limit: read then Array.prototype.slice(offset, offset+limit). -/
def limitOp (cfg : Config) (st : DBState) (now : Nat) (collection : String)
    (limit offset : Nat) : List Obj × DBState :=
  let (items, st1) := readOp cfg st now collection []
  ((items.drop offset).take limit, st1)

/-- The JavaScript relational comparison used by GitDB.sort for the
value shapes the engine compares: numbers numerically, strings
lexicographically.  (Comparisons between other shapes coerce through
ToPrimitive/ToNumber in JavaScript; the claims only exercise
same-shape comparisons.) -/
def jsLt : Value → Value → Bool
  | .vNum a, .vNum b => a < b
  | .vStr a, .vStr b => a < b
  | _, _ => false

/-- The key comparator of GitDB.sort: lowercases both values when both
are strings, then returns -1/0/1 flipped by the order argument. -/
def sortCompare (sortBy order : String) (a b : Obj) : Int :=
  let aVal := oget a sortBy
  let bVal := oget b sortBy
  let lowered :=
    match aVal, bVal with
    | .vStr s1, .vStr s2 => (Value.vStr s1.toLower, Value.vStr s2.toLower)
    | _, _ => (aVal, bVal)
  if jsLt lowered.1 lowered.2 then (if order = "desc" then 1 else -1)
  else if jsLt lowered.2 lowered.1 then (if order = "desc" then -1 else 1)
  else 0

/-- Stable insertion of an element into a sorted list: the new element
goes before the first element it compares less-or-equal to. -/
def insertLe {α : Type} (le : α → α → Bool) (x : α) : List α → List α
  | [] => [x]
  | y :: ys => if le x y then x :: y :: ys else y :: insertLe le x ys

/-- Stable sort by a Boolean less-or-equal test (V8 Array.prototype.sort
is stable; any stable sort agreeing with the comparator computes the
same list). -/
def sortLe {α : Type} (le : α → α → Bool) : List α → List α
  | [] => []
  | x :: xs => insertLe le x (sortLe le xs)

/-- Replace the data of the cache entry stored under a key, keeping its
timestamp (the explicit form of an in-place mutation of the array the
entry holds). -/
def cacheReplaceData (cache : List (String × CacheEntry)) (key : String)
    (newData : List Obj) : List (String × CacheEntry) :=
  cache.map (fun e => if e.1 = key then (e.1, ⟨newData, e.2.timestamp⟩) else e)

/-- GitDB.sort (key form): read the collection (empty query), then
Array.prototype.sort with the key comparator.  Array.prototype.sort
sorts in place: `items` is the very array held by the cache entry for
this collection (cache hit) or just stored into it (cache miss), so
that entry now holds the sorted order.  The embedding makes that heap
effect explicit with cacheReplaceData. -/
def sortOp (cfg : Config) (st : DBState) (now : Nat) (collection : String)
    (sortBy order : String) : List Obj × DBState :=
  let (items, st1) := readOp cfg st now collection []
  let sorted := sortLe (fun a b => sortCompare sortBy order a b ≤ 0) items
  (sorted, { st1 with cache := cacheReplaceData st1.cache (cacheKey collection []) sorted })

/-- What the LockManager acquisition loop observes on its i-th
iteration: the exclusive create (flag wx) succeeded; or the lock file
exists and its content parses to a timestamp Date.now() - parseInt
millisecond ago; or the lock file exists but reading it failed; or the
write failed with some other error. -/
inductive LockProbe where
  | free
  | held (age : Int)
  | unreadable
  | writeErr

/-- LockManager configuration and its constructor defaults. -/
structure LockConfig where
  maxRetries : Nat := 3
  retryDelay : Nat := 1000
  lockTimeout : Int := 30000

/-- How a run of the acquisition loop ended.  fuelOut is the embedding
artifact for runs longer than the supplied fuel (the stale-clear and
unreadable branches re-enter the loop without incrementing retries, so
the source loop has no intrinsic bound on iterations). -/
inductive LockOutcome where
  | acquired
  | lockTimeoutErr
  | fuelOut
deriving DecidableEq, Repr

/-- Observable trace of one acquireLock run: the outcome, the sleep
durations in chronological order, and how many times a lock file was
forcibly cleared. -/
structure LockTrace where
  outcome : LockOutcome
  sleeps : List Nat
  clears : Nat
deriving DecidableEq, Repr

/-- LockManager.acquireLock, one loop iteration per fuel unit.  On
EEXIST with a stale lock (age > lockTimeout) the lock is released and
the loop continues without counting a retry; on an unreadable lock the
file is unlinked and the loop continues likewise; otherwise retries is
incremented and, when attempts remain, the loop sleeps
retryDelay * retries milliseconds.  When retries reaches maxRetries the
loop exits and the acquire fails. -/
def acquireLockAux (cfg : LockConfig) (probe : Nat → LockProbe) :
    Nat → Nat → Nat → List Nat → Nat → LockTrace
  | 0, _, _, sleeps, clears => ⟨.fuelOut, sleeps.reverse, clears⟩
  | fuel + 1, i, retries, sleeps, clears =>
      if retries < cfg.maxRetries then
        match probe i with
        | .free => ⟨.acquired, sleeps.reverse, clears⟩
        | .held age =>
            if age > cfg.lockTimeout then
              acquireLockAux cfg probe fuel (i + 1) retries sleeps (clears + 1)
            else
              if retries + 1 < cfg.maxRetries then
                acquireLockAux cfg probe fuel (i + 1) (retries + 1)
                  (cfg.retryDelay * (retries + 1) :: sleeps) clears
              else
                acquireLockAux cfg probe fuel (i + 1) (retries + 1) sleeps clears
        | .unreadable =>
            acquireLockAux cfg probe fuel (i + 1) retries sleeps (clears + 1)
        | .writeErr =>
            if retries + 1 < cfg.maxRetries then
              acquireLockAux cfg probe fuel (i + 1) (retries + 1)
                (cfg.retryDelay * (retries + 1) :: sleeps) clears
            else
              acquireLockAux cfg probe fuel (i + 1) (retries + 1) sleeps clears
      else ⟨.lockTimeoutErr, sleeps.reverse, clears⟩

/-- LockManager.acquireLock from the initial state (retries = 0). -/
def acquireLock (cfg : LockConfig) (probe : Nat → LockProbe) (fuel : Nat) : LockTrace :=
  acquireLockAux cfg probe fuel 0 0 [] 0

/-- State of the GitHub snapshot medium: the current blob content of
the data file and its current sha, abstracted as a version counter
bumped on every accepted write. -/
structure GHState where
  sha : Nat
  blob : String
deriving DecidableEq, Repr

/-- The rejection the GitHub contents API answers with when the
supplied sha does not match the current one. -/
inductive GHConflict where
  | conflict
deriving DecidableEq, Repr

/-- GitHubStorage.getFileInfo: reads the CURRENT sha of the file over
the API at the moment it is called. -/
def getFileInfo (st : GHState) : Nat :=
  st.sha

/-- Model of the GitHub contents API createOrUpdateFileContents: the
write is accepted exactly when the supplied expected sha equals the
current sha of the file, and then replaces the blob and produces a new
sha; otherwise it is rejected (the version-conflict answer). -/
def createOrUpdateFileContents (st : GHState) (content : String) (expectedSha : Nat) :
    Except GHConflict GHState :=
  if expectedSha = st.sha then .ok ⟨st.sha + 1, content⟩ else .error .conflict

/-- GitHubStorage.write: fetch the sha via getFileInfo at write time
and pass that as the expected sha of createOrUpdateFileContents.  No
version token from any earlier read participates. -/
def ghWrite (st : GHState) (content : String) : Except GHConflict GHState :=
  let sha := getFileInfo st
  createOrUpdateFileContents st content sha

/-- Commit author metadata as mapped by HistoryManager.getFileHistory. -/
structure Author where
  name : String
  email : String
  date : String
deriving DecidableEq, Repr

/-- One commit of the version log, newest first as listCommits returns
them.  `parsed` is the JSON.parse of the data file content at this
commit; none embeds a failed fetch or parse (such commits are skipped
with a console warning). -/
structure Commit where
  sha : String
  message : String
  author : Author
  parsed : Option Database
deriving DecidableEq, Repr

/-- One entry of a reconstructed record history. -/
structure HistEntry where
  commit : String
  message : String
  author : Author
  date : String
  record : Obj
  action : String
deriving DecidableEq, Repr

/-- HistoryManager.hasRecordChanged: true when the key sets differ in
size or some field of record1 differs from record2 under
JSON.stringify comparison.  (The null-record guard of the source is
unreachable from getRecordHistory, which only pushes existing
records.) -/
def hasRecordChanged (record1 record2 : Obj) : Bool :=
  if record1.length ≠ record2.length then true
  else record1.any (fun kv => stringifyV (oget record1 kv.1) ≠ stringifyV (oget record2 kv.1))

/-- The collection loop of HistoryManager.getRecordHistory: for each
commit (newest first), materialize the data file, and push an entry
with action "exists" only when the record id is found in the
collection there. -/
def recordHistoryRaw (commits : List Commit) (collection recordId : String) :
    List HistEntry :=
  commits.filterMap (fun c =>
    match c.parsed with
    | none => none
    | some data =>
        match lookupA data collection with
        | none => none
        | some items =>
            (items.find? (idMatches recordId)).map (fun record =>
              ⟨c.sha, c.message, c.author, c.author.date, record, "exists"⟩))

/-- HistoryManager.analyzeRecordHistory: entry i is compared with entry
i+1 (its chronological predecessor, since the list is newest first);
the last entry of the list is labeled created, every other entry is
labeled updated or unchanged by hasRecordChanged. -/
def analyzeRecordHistory : List HistEntry → List HistEntry
  | [] => []
  | [current] => [{ current with action := "created" }]
  | current :: previous :: rest =>
      { current with
        action := if hasRecordChanged current.record previous.record then "updated" else "unchanged" }
        :: analyzeRecordHistory (previous :: rest)

/-- HistoryManager.getRecordHistory: collect the entries newest first,
then label them. -/
def getRecordHistory (commits : List Commit) (collection recordId : String) :
    List HistEntry :=
  analyzeRecordHistory (recordHistoryRaw commits collection recordId)

/-- A JavaScript number: either NaN or a (rational) numeric value. -/
inductive JSNumber where
  | nan
  | num (q : ℚ)
deriving DecidableEq, Repr

/-- JavaScript subtraction on numbers. -/
def jsSub : JSNumber → JSNumber → JSNumber
  | .num a, .num b => .num (a - b)
  | _, _ => .nan

/-- JavaScript division on numbers, for the nonzero divisors used
here. -/
def jsDiv : JSNumber → JSNumber → JSNumber
  | .num a, .num b => .num (a / b)
  | _, _ => .nan

/-- The JavaScript comparison `x > 0` (false on NaN). -/
def jsGtZero : JSNumber → Bool
  | .num a => a > 0
  | .nan => false

/-- String.prototype.trim: strips whitespace from both ends (written
out structurally so that evaluation is kernel-reducible). -/
def jsTrim (s : String) : String :=
  String.mk (((s.toList.dropWhile Char.isWhitespace).reverse.dropWhile
    Char.isWhitespace).reverse)

/-- String.prototype.split with a one-character separator, on
character lists: the empty string yields [[]], matching JavaScript
where "".split(sep) is [""]. -/
def splitChar (sep : Char) : List Char → List (List Char)
  | [] => [[]]
  | c :: rest =>
      let r := splitChar sep rest
      if c = sep then [] :: r
      else
        match r with
        | [] => [[c]]
        | h :: t => (c :: h) :: t

/-- String.prototype.split with a one-character separator. -/
def jsSplit (s : String) (sep : Char) : List String :=
  (splitChar sep s.toList).map String.mk

/-- The Number() coercion that the JavaScript subtraction operator
applies to a string operand: the empty (trimmed) string is 0, a string
of digits with an optional sign is its value, anything else is NaN.
(Fractional, exponent and hex literal forms also coerce in JavaScript;
the ISO date strings at issue contain interior dashes, colons and
letters, on which every faithful extension also answers NaN.) -/
def jsStringToNumber (s : String) : JSNumber :=
  let t := jsTrim s
  if t = "" then .num 0
  else
    let digitsVal (l : List Char) : ℚ :=
      ((l.foldl (fun n c => n * 10 + (c.toNat - '0'.toNat)) 0 : Nat) : ℚ)
    match t.toList with
    | '-' :: rest =>
        if rest ≠ [] && rest.all Char.isDigit then .num (-(digitsVal rest)) else .nan
    | '+' :: rest =>
        if rest ≠ [] && rest.all Char.isDigit then .num (digitsVal rest) else .nan
    | l =>
        if l.all Char.isDigit then .num (digitsVal l) else .nan

/-- Math.round: nearest integer, half toward positive infinity. -/
def mathRound (q : ℚ) : ℤ :=
  ⌊q + 1 / 2⌋

/-- Math.round(x * 100) / 100 lifted to JavaScript numbers. -/
def roundTwo : JSNumber → JSNumber
  | .num q => .num ((mathRound (q * 100) : ℚ) / 100)
  | .nan => .nan

/-- Insertion-order deduplication, as [...new Set(xs)]. -/
def dedupFirst (xs : List String) : List String :=
  xs.foldl (fun acc x => if x ∈ acc then acc else acc ++ [x]) []

/-- The statistics record HistoryManager.getHistoryStats returns
(firstCommit and lastCommit are summarized as sha, date, message). -/
structure HistoryStats where
  totalCommits : Nat
  firstCommit : Option (String × String × String)
  lastCommit : Option (String × String × String)
  authors : List String
  averageCommitsPerDay : JSNumber
deriving DecidableEq, Repr

/-- HistoryManager.getHistoryStats: with a non-empty log, lastCommit is
commits[0] (newest) and firstCommit is commits[commits.length - 1];
timeSpan is `(lastCommit.author.date - firstCommit.author.date) /
(1000*60*60*24)` — a JavaScript subtraction whose operands are the date
STRINGS, so both coerce through Number().  (The `dates` array the
source builds from `new Date(...)` is never used.)  The average is
commits.length / timeSpan when timeSpan > 0, else 0, rounded to two
decimals. -/
def getHistoryStats (commits : List Commit) : HistoryStats :=
  match commits with
  | [] => ⟨0, none, none, [], .num 0⟩
  | lastCommit :: rest =>
      let firstCommit := (lastCommit :: rest).getLast (by simp)
      let authors := dedupFirst ((lastCommit :: rest).map (fun c => c.author.name))
      let timeSpan :=
        jsDiv (jsSub (jsStringToNumber lastCommit.author.date)
                     (jsStringToNumber firstCommit.author.date))
              (.num (1000 * 60 * 60 * 24))
      let averageCommitsPerDay :=
        if jsGtZero timeSpan then jsDiv (.num ((lastCommit :: rest).length : ℚ)) timeSpan
        else .num 0
      ⟨(lastCommit :: rest).length,
       some (firstCommit.sha, firstCommit.author.date, firstCommit.message),
       some (lastCommit.sha, lastCommit.author.date, lastCommit.message),
       authors,
       roundTwo averageCommitsPerDay⟩

/-- Property access on a possibly-non-object value, as `data[0]` /
`item[header]` in CSVFormat (undefined off objects for the shapes at
issue). -/
def propOfValue (v : Value) (k : String) : Value :=
  match v with
  | .vObj fs => oget fs k
  | _ => .vUndefined

/-- CSVFormat.serialize (default comma delimiter): non-arrays and empty
arrays serialize to the empty string; otherwise the keys of the first
item become the header line and each item contributes the line of its
values under `item[header] || ""` coerced by Array.prototype.join. -/
def csvSerialize (data : Value) : String :=
  match data with
  | .vArr items =>
      match items with
      | [] => ""
      | firstItem :: _ =>
          let headers := match firstItem with | .vObj fs => fs.map (fun f => f.1) | _ => []
          let row (item : Value) : String :=
            String.intercalate "," (headers.map (fun h =>
              let v := propOfValue item h
              if truthy v then jsToString v else ""))
          String.intercalate "\n" (String.intercalate "," headers :: items.map row)
  | _ => ""

/-- CSVFormat.parse (default comma delimiter): trim, split into lines,
take the first line as headers, and turn each later line into an
object field by field; a missing or empty cell becomes the empty
string. -/
def csvParse (data : String) : Value :=
  let lines := jsSplit (jsTrim data) (Char.ofNat 10)
  match lines with
  | [] => .vArr []
  | headerLine :: rest =>
      let headers := jsSplit headerLine (Char.ofNat 44)
      let mkItem (line : String) : Value :=
        let values := jsSplit line (Char.ofNat 44)
        .vObj (headers.enum.foldl (fun item p =>
          let cell := values.getD p.1 ""
          oset item (jsTrim p.2) (.vStr (if cell ≠ "" then jsTrim cell else ""))) [])
      .vArr (rest.map mkItem)

/-- The record of snapshot S2 in the history-reconstruction example of
the specification. -/
def recAge30 : Obj := [("id", .vStr "1"), ("age", .vNum 30)]

/-- The record of snapshot S3 in the history-reconstruction example. -/
def recAge31 : Obj := [("id", .vStr "1"), ("age", .vNum 31)]

/-- Shared author metadata of the example commits. -/
def exAuthor : Author := ⟨"alice", "alice@example.com", "2024-01-01T00:00:00Z"⟩

/-- The example version log, newest first: S4=\x7busers:[]\x7d,
S3=\x7busers:[\x7bid:"1",age:31\x7d]\x7d, S2=\x7busers:[\x7bid:"1",age:30\x7d]\x7d,
S1=\x7busers:[]\x7d. -/
def exCommits : List Commit :=
  [⟨"s4", "S4", exAuthor, some [("users", [])]⟩,
   ⟨"s3", "S3", exAuthor, some [("users", [recAge31])]⟩,
   ⟨"s2", "S2", exAuthor, some [("users", [recAge30])]⟩,
   ⟨"s1", "S1", exAuthor, some [("users", [])]⟩]

/-- An example database with one user record, as the engine would pass
it to the configured codec on a write. -/
def exDatabaseValue : Value :=
  .vObj [("users", .vArr [.vObj [("id", .vStr "1"), ("name", .vStr "a")]])]

/-- Two example commits 2024-01-03 and 2024-01-01, newest first, for
the history statistics. -/
def exStatCommits : List Commit :=
  [⟨"sha-new", "newer", ⟨"alice", "alice@example.com", "2024-01-03T00:00:00Z"⟩, none⟩,
   ⟨"sha-old", "older", ⟨"bob", "bob@example.com", "2024-01-01T00:00:00Z"⟩, none⟩]

/-- C1: the claim asserts that the snapshot write supplies the version
token read at the start of the operation (step 2) as the expected
current version, and that a write is rejected with VersionConflict
when the medium has moved on since that read.  This theorem refutes
it: a mutating operation reads the snapshot at sha 0 (state ⟨0, "A"⟩);
a concurrent writer moves the medium to ⟨1, "B"⟩; the write of this
operation then SUCCEEDS (producing ⟨2, "C"⟩, overwriting "B") instead
of being rejected, because GitHubStorage.write fetches the current sha
at write time rather than using the step-2 token (0 ≠ 1 here). -/
theorem c1_counterexample :
    getFileInfo ⟨0, "A"⟩ ≠ getFileInfo ⟨1, "B"⟩ ∧
    ghWrite ⟨1, "B"⟩ "C" = .ok ⟨2, "C"⟩ :=
  ⟨by decide, rfl⟩

/-- C1 (amended): the serialized write supplies the sha fetched by
getFileInfo immediately before the write as the expected version, so
it always matches the current one: every write is accepted (and bumps
the version), and no VersionConflict is ever raised for a change that
happened between the start of the operation and its write. -/
theorem c1_amended_write_always_succeeds :
    ∀ (st : GHState) (content : String),
      ghWrite st content = .ok ⟨st.sha + 1, content⟩ := by
  intro st content
  simp [ghWrite, getFileInfo, createOrUpdateFileContents]

/-- C2: on the snapshot sequence S1=\x7busers:[]\x7d, S2=\x7busers:[\x7bid:"1",
age:30\x7d]\x7d, S3=\x7busers:[\x7bid:"1",age:31\x7d]\x7d, S4=\x7busers:[]\x7d the claim
requires recordHistory("users","1") to yield the actions [created,
updated, deleted] in oldest-to-newest order.  Evaluating the embedded
getRecordHistory shows the code instead yields ["updated", "created"]:
entries exist only for versions where the record is present (S3, S2),
they stay in newest-to-oldest order, and no synthetic deleted entry is
ever produced. -/
theorem c2_record_history_evaluation :
    (getRecordHistory exCommits "users" "1").map (fun e => e.action)
      = ["updated", "created"] ∧
    "deleted" ∉ (getRecordHistory exCommits "users" "1").map (fun e => e.action) := by
  refine ⟨rfl, by decide⟩

/-- C8: the claim requires parse ∘ serialize = id for every supported
codec, in particular CSV.  Evaluating the embedded CSVFormat on a
Database the engine produces (an object mapping collections to record
arrays) shows serialize answers the empty string (the Database is not
an array), which parses back to the empty array: the whole Database is
lost, refuting the round-trip law for the CSV codec. -/
theorem c8_csv_roundtrip_evaluation :
    csvSerialize exDatabaseValue = "" ∧
    csvParse (csvSerialize exDatabaseValue) = .vArr [] ∧
    Value.vArr [] ≠ exDatabaseValue := by
  refine ⟨rfl, rfl, ?_⟩
  decide

/-- C9: the claim requires averagePerDay = totalVersions / max(1,
dayspan), positive for a non-empty log.  Evaluating the embedded
getHistoryStats on a two-commit log whose dates span two days shows
averageCommitsPerDay = 0, not 1: the source subtracts the ISO date
STRINGS (lastCommit.author.date - firstCommit.author.date), the
Number() coercion of an ISO date string is NaN, NaN > 0 is false, and
the average falls back to 0. -/
theorem c9_history_stats_evaluation :
    (getHistoryStats exStatCommits).totalCommits = 2 ∧
    jsSub (jsStringToNumber "2024-01-03T00:00:00Z")
          (jsStringToNumber "2024-01-01T00:00:00Z") = .nan ∧
    (getHistoryStats exStatCommits).averageCommitsPerDay = .num 0 := by
  refine ⟨rfl, by decide, ?_⟩
  have h : jsGtZero (jsDiv (jsSub (jsStringToNumber "2024-01-03T00:00:00Z")
      (jsStringToNumber "2024-01-01T00:00:00Z"))
      (.num (1000 * 60 * 60 * 24))) = false := by decide
  simp only [getHistoryStats, exStatCommits, List.getLast, List.length_cons,
    List.length_nil, h, Bool.false_eq_true, if_false, roundTwo, mathRound]
  norm_num

/-- The protected-field forcing in the update merge: whatever the
updates payload holds, the merged record keeps the original id and
createdAt, because the object literal writes them back after the
spread. -/
theorem oget_protected_merge (orig updates : Obj) (nowIso : String) :
    oget (oset (oset (oset (ospread orig updates) "id" (oget orig "id"))
      "createdAt" (oget orig "createdAt")) "updatedAt" (.vStr nowIso)) "id"
      = oget orig "id"
  ∧ oget (oset (oset (oset (ospread orig updates) "id" (oget orig "id"))
      "createdAt" (oget orig "createdAt")) "updatedAt" (.vStr nowIso)) "createdAt"
      = oget orig "createdAt" := by
  constructor
  · rw [oget_oset_ne _ _ _ _ (by decide), oget_oset_ne _ _ _ _ (by decide),
      oget_oset_self]
  · rw [oget_oset_ne _ _ _ _ (by decide), oget_oset_self]

/-- C3: update(collection, id, updates) never changes the stored id or
createdAt of the record, even when the updates payload carries id or
createdAt keys with other values (they are silently overridden with
the original values), and the update branch of bulkOperation behaves
the same way. -/
theorem c3_update_preserves_protected_fields :
    (∀ (cfg : Config) (st : DBState) (nowIso collection id : String) (updates : Obj)
       (r : Obj) (st' : DBState) (items : List Obj) (i : Nat),
       updateOp cfg st nowIso collection id updates = .ok (r, st') →
       lookupA st.stored collection = some items →
       items.findIdx? (idMatches id) = some i →
       oget r "id" = oget (items.getD i []) "id" ∧
       oget r "createdAt" = oget (items.getD i []) "createdAt")
  ∧ (∀ (cfg : Config) (nowIso collection id : String) (updates : Obj)
       (data data' : Database) (results results' : List BulkResult)
       (items : List Obj) (i : Nat),
       bulkStep cfg nowIso (data, results) (.updateReq collection id updates)
         = .ok (data', results') →
       lookupA data collection = some items →
       items.findIdx? (idMatches id) = some i →
       ∃ r, results' = results ++ [⟨"update", true, some r, none⟩] ∧
         oget r "id" = oget (items.getD i []) "id" ∧
         oget r "createdAt" = oget (items.getD i []) "createdAt") := by
  constructor
  · intro cfg st nowIso collection id updates r st' items i hok hitems hidx
    simp only [updateOp, hitems, hidx] at hok
    cases hval : validateItem cfg
        (oset (oset (oset (ospread (items.getD i []) updates)
          "id" (oget (items.getD i []) "id"))
          "createdAt" (oget (items.getD i []) "createdAt"))
          "updatedAt" (.vStr nowIso)) with
    | ok u =>
        simp only [hval, bind, Except.bind, pure, Except.pure] at hok
        rw [Except.ok.injEq, Prod.mk.injEq] at hok
        refine ⟨?_, ?_⟩
        · rw [← hok.1]
          exact (oget_protected_merge _ _ _).1
        · rw [← hok.1]
          exact (oget_protected_merge _ _ _).2
    | error e =>
        simp only [hval, bind, Except.bind] at hok
        cases hok
  · intro cfg nowIso collection id updates data data' results results' items i hok hitems hidx
    simp only [bulkStep, hitems, hidx] at hok
    cases hval : validateItem cfg
        (oset (oset (oset (ospread (items.getD i []) updates)
          "id" (oget (items.getD i []) "id"))
          "createdAt" (oget (items.getD i []) "createdAt"))
          "updatedAt" (.vStr nowIso)) with
    | ok u =>
        simp only [hval, bind, Except.bind, pure, Except.pure] at hok
        rw [Except.ok.injEq, Prod.mk.injEq] at hok
        refine ⟨_, hok.2.symm, ?_, ?_⟩
        · exact (oget_protected_merge _ _ _).1
        · exact (oget_protected_merge _ _ _).2
    | error e =>
        simp only [hval, bind, Except.bind] at hok
        cases hok

/-- The example state for the C3 witness: one user whose id is "1" and
createdAt is "T0". -/
def c3Items : List Obj :=
  [[("id", .vStr "1"), ("createdAt", .vStr "T0"), ("name", .vStr "a")]]

/-- The example state wrapping c3Items. -/
def c3St : DBState := ⟨[("users", c3Items)], []⟩

/-- An update payload that tries to overwrite both protected fields. -/
def c3Updates : Obj := [("id", .vStr "9"), ("createdAt", .vStr "X"), ("age", .vNum 5)]

/-- The record the update produces on the example. -/
def c3R : Obj :=
  [("id", .vStr "1"), ("createdAt", .vStr "T0"), ("name", .vStr "a"),
   ("age", .vNum 5), ("updatedAt", .vStr "T1")]

/-- The state the update produces on the example. -/
def c3St2 : DBState := ⟨[("users", [c3R])], []⟩

/-- C3 witness: the theorem applied to a concrete update whose payload
carries id "9" and createdAt "X"; the stored record keeps id "1" and
createdAt "T0". -/
theorem c3_update_preserves_protected_fields_witness :
    (oget c3R "id" = oget (c3Items.getD 0 []) "id" ∧
     oget c3R "createdAt" = oget (c3Items.getD 0 []) "createdAt") ∧
    (∃ r, [(⟨"update", true, some c3R, none⟩ : BulkResult)]
        = [] ++ [⟨"update", true, some r, none⟩] ∧
       oget r "id" = oget (c3Items.getD 0 []) "id" ∧
       oget r "createdAt" = oget (c3Items.getD 0 []) "createdAt") :=
  ⟨c3_update_preserves_protected_fields.1 {} c3St "T1" "users" "1" c3Updates
     c3R c3St2 c3Items 0 rfl rfl rfl,
   c3_update_preserves_protected_fields.2 {} "T1" "users" "1" c3Updates
     c3St.stored [("users", [c3R])] [] [⟨"update", true, some c3R, none⟩]
     c3Items 0 rfl rfl rfl⟩

/-- The list of record ids of a collection in a state. -/
def collIds (st : DBState) (collection : String) : List Value :=
  ((lookupA st.stored collection).getD []).map (fun o => oget o "id")

/-- The example state for C4: a users collection that already holds a
record with id "1". -/
def c4St : DBState :=
  ⟨[("users", [[("id", .vStr "1"), ("createdAt", .vStr "T0"),
     ("updatedAt", .vStr "T0")]])], []⟩

/-- C4 counterexample: create only generates an id when item.id is
falsy and never checks a caller-supplied id against the existing
records, so creating an item that carries the id "1" into a collection
that already has a record with id "1" succeeds and leaves two records
with the same id: the ids are not pairwise distinct. -/
theorem c4_counterexample :
    (createOp {} c4St "T1" "fresh-uuid" "users" [("id", .vStr "1")]).toOption.map
      (fun p => collIds p.2 "users")
      = some [.vStr "1", .vStr "1"] ∧
    ¬ ([Value.vStr "1", Value.vStr "1"].Nodup) := by
  exact ⟨rfl, by decide⟩

/-- C4 (amended): after any sequence of create calls, the ids of a
collection stay pairwise distinct PROVIDED the effective id of each
created record (the caller-supplied id when truthy, else the generated
one) is not already present in the collection; a create whose input
item carries the id of an existing record inserts a duplicate.  This
theorem proves the preservation half: one create keeps the ids
pairwise distinct whenever the id of the new record is fresh. -/
theorem c4_amended_create_preserves_distinct_ids :
    ∀ (cfg : Config) (st : DBState) (nowIso newId collection : String) (item : Obj)
      (r : Obj) (st' : DBState),
      createOp cfg st nowIso newId collection item = .ok (r, st') →
      (collIds st collection).Nodup →
      oget r "id" ∉ collIds st collection →
      (collIds st' collection).Nodup := by
  intro cfg st nowIso newId collection item r st' hok hnd hfresh
  simp only [createOp, bind, Except.bind, pure, Except.pure] at hok
  split at hok
  next e hval =>
    cases hok
  next u hval =>
    rw [Except.ok.injEq, Prod.mk.injEq] at hok
    obtain ⟨hr, hst⟩ := hok
    rw [← hst]
    rw [hr]
    unfold collIds
    simp only [lookupA_setA_self, Option.getD_some, List.map_append, List.map_cons,
      List.map_nil]
    by_cases h0 : (lookupA st.stored collection).isNone
    · simp only [h0, if_true, lookupA_setA_self, Option.getD_some, List.map_nil,
        List.nil_append]
      exact List.nodup_singleton _
    · simp only [h0, Bool.false_eq_true, if_false]
      rw [List.nodup_append]
      refine ⟨hnd, List.nodup_singleton _, ?_⟩
      intro x hx hx1
      simp only [List.mem_singleton] at hx1
      exact hfresh (hx1 ▸ hx)

theorem c4_amended_witness :
    (collIds ⟨[("users", [[("id", Value.vStr "1"), ("createdAt", Value.vStr "T1"),
        ("updatedAt", Value.vStr "T1")], [("id", Value.vStr "2"),
        ("createdAt", Value.vStr "T1"), ("updatedAt", Value.vStr "T1")]])], []⟩
      "users").Nodup :=
  c4_amended_create_preserves_distinct_ids {}
    ⟨[("users", [[("id", Value.vStr "1"), ("createdAt", Value.vStr "T1"),
       ("updatedAt", Value.vStr "T1")]])], []⟩
    "T1" "2" "users" []
    [("id", Value.vStr "2"), ("createdAt", Value.vStr "T1"), ("updatedAt", Value.vStr "T1")]
    ⟨[("users", [[("id", Value.vStr "1"), ("createdAt", Value.vStr "T1"),
       ("updatedAt", Value.vStr "T1")], [("id", Value.vStr "2"),
       ("createdAt", Value.vStr "T1"), ("updatedAt", Value.vStr "T1")]])], []⟩
    rfl (by decide) (by decide)

theorem insertLe_perm {α : Type} (le : α → α → Bool) (x : α) (l : List α) :
    (insertLe le x l).Perm (x :: l) := by
  induction l with
  | nil => simp [insertLe]
  | cons y ys ih =>
      by_cases h : le x y
      · simp [insertLe, h]
      · simp only [insertLe, h, Bool.false_eq_true, if_false]
        exact ((ih.cons y).trans (List.Perm.swap x y ys)).symm.symm

theorem sortLe_perm {α : Type} (le : α → α → Bool) (l : List α) :
    (sortLe le l).Perm l := by
  induction l with
  | nil => simp [sortLe]
  | cons x xs ih =>
      exact (insertLe_perm le x (sortLe le xs)).trans (ih.cons x)

theorem readOp_stored (cfg : Config) (st : DBState) (now : Nat) (collection : String)
    (query : Obj) : (readOp cfg st now collection query).2.stored = st.stored := by
  unfold readOp readOp.readMiss
  dsimp only
  repeat first
  | rfl
  | split

/-- The two records of the C7 example: ages 30 and 20, stored in that
(unsorted) insertion order. -/
def c7A : Obj := [("id", .vStr "1"), ("age", .vNum 30)]

/-- Second record of the C7 example. -/
def c7B : Obj := [("id", .vStr "2"), ("age", .vNum 20)]

/-- Initial state of the C7 example: collection in insertion order,
empty cache. -/
def c7St0 : DBState := ⟨[("users", [c7A, c7B])], []⟩

/-- The state after a first read of the collection (which caches the
unsorted array). -/
def c7St1 : DBState := (readOp {} c7St0 0 "users" []).2

/-- The state after sort("users", "age", "asc") on that state. -/
def c7St2 : DBState := (sortOp {} c7St1 0 "users" "age" "asc").2

/-- C7 counterexample: the first read returns the collection in
insertion order [age 30, age 20] and caches that array; sort then
sorts the array in place (ascending by age), and a later read within
the time-to-live serves the cache and observes [age 20, age 30]: sort
mutated the cached copy returned by read, refuting the claim that no
query operation mutates the snapshot data read returns. -/
theorem c7_counterexample :
    (readOp {} c7St0 0 "users" []).1 = [c7A, c7B] ∧
    (sortOp {} c7St1 0 "users" "age" "asc").1 = [c7B, c7A] ∧
    (readOp {} c7St2 50 "users" []).1 = [c7B, c7A] ∧
    ([c7A, c7B] : List Obj) ≠ [c7B, c7A] := by
  refine ⟨rfl, rfl, rfl, by decide⟩

/-- C7 (amended): every query operation is a deterministic (pure)
function of the state, and none of them changes the stored snapshot;
filter, find and limit also leave every cached array as is (they build
fresh arrays), but sort reorders in place the very array that read
returned and cached, so the cached result for the collection becomes
the sorted permutation of it. -/
theorem c7_amended_query_ops_frame :
    (∀ (cfg : Config) (st : DBState) (now : Nat) (collection : String) (query : Obj),
       (readOp cfg st now collection query).2.stored = st.stored)
  ∧ (∀ (cfg : Config) (st : DBState) (now : Nat) (collection : String) (p : Obj → Bool),
       (filterOp cfg st now collection p).2.stored = st.stored)
  ∧ (∀ (cfg : Config) (st : DBState) (now : Nat) (collection : String) (p : Obj → Bool),
       (findOp cfg st now collection p).2.stored = st.stored)
  ∧ (∀ (cfg : Config) (st : DBState) (now : Nat) (collection : String) (n off : Nat),
       (limitOp cfg st now collection n off).2.stored = st.stored)
  ∧ (∀ (cfg : Config) (st : DBState) (now : Nat) (collection sortBy order : String),
       (sortOp cfg st now collection sortBy order).2.stored = st.stored ∧
       ((sortOp cfg st now collection sortBy order).1).Perm
         ((readOp cfg st now collection []).1)) := by
  refine ⟨fun cfg st now c q => readOp_stored cfg st now c q,
    fun cfg st now c p => readOp_stored cfg st now c [],
    fun cfg st now c p => readOp_stored cfg st now c [],
    fun cfg st now c n off => readOp_stored cfg st now c [],
    fun cfg st now c k ord => ⟨readOp_stored cfg st now c [], ?_⟩⟩
  exact sortLe_perm _ _

/-- Inversion for a failing Except bind: the error comes from the first
action or from the continuation. -/
theorem exceptBindError {ε α β : Type} (x : Except ε α) (f : α → Except ε β) (e : ε)
    (h : (x >>= f) = .error e) : x = .error e ∨ ∃ a, x = .ok a ∧ f a = .error e := by
  cases x with
  | error u =>
      left
      simp only [bind, Except.bind] at h
      rw [Except.error.injEq] at h
      rw [h]
  | ok a =>
      right
      refine ⟨a, rfl, ?_⟩
      simpa only [bind, Except.bind] using h

/-- The only error validateItem produces is its ValidationError. -/
theorem validateItemError (cfg : Config) (item : Obj) (u : DBError)
    (h : validateItem cfg item = .error u) :
    u = .validationError "required field missing" := by
  unfold validateItem at h
  split at h
  · cases h
  · rw [Except.error.injEq] at h
    exact h.symm

/-- The cached value GitDB.read would serve for a key: the entry data
when an entry exists and is younger than cacheTimeout, else none. -/
def cacheFresh (cfg : Config) (cache : List (String × CacheEntry)) (now : Nat)
    (key : String) : Option (List Obj) :=
  match lookupA cache key with
  | some cached => if now - cached.timestamp < cfg.cacheTimeout then some cached.data else none
  | none => none

/-- C10: reading a collection that is not present in the database
returns the empty array (read raises nothing; the type of the
embedded readOp is total), readById consequently returns null, the
NotFound errors are raised by update, delete and deleteCollection for
a missing collection, and create never produces a NotFound error (its
only error is the ValidationError of validateItem). -/
theorem c10_missing_collection_behavior :
    (∀ (cfg : Config) (st : DBState) (now : Nat) (collection : String) (query : Obj),
       lookupA st.stored collection = none →
       cacheFresh cfg st.cache now (cacheKey collection query) = none →
       (readOp cfg st now collection query).1 = [])
  ∧ (∀ (cfg : Config) (st : DBState) (now : Nat) (collection id : String),
       lookupA st.stored collection = none →
       cacheFresh cfg st.cache now (cacheKey collection [("id", Value.vStr id)]) = none →
       (readByIdOp cfg st now collection id).1 = none)
  ∧ (∀ (cfg : Config) (st : DBState) (nowIso collection id : String) (updates : Obj),
       lookupA st.stored collection = none →
       updateOp cfg st nowIso collection id updates
         = .error (.notFound ("Collection " ++ collection ++ " not found")))
  ∧ (∀ (st : DBState) (collection id : String),
       lookupA st.stored collection = none →
       deleteOp st collection id
         = .error (.notFound ("Collection " ++ collection ++ " not found")))
  ∧ (∀ (st : DBState) (collection : String),
       lookupA st.stored collection = none →
       deleteCollectionOp st collection
         = .error (.notFound ("Collection " ++ collection ++ " not found")))
  ∧ (∀ (cfg : Config) (st : DBState) (nowIso newId collection : String) (item : Obj)
       (e : DBError),
       createOp cfg st nowIso newId collection item = .error e →
       ∃ m, e = .validationError m) := by
  have hread : ∀ (cfg : Config) (st : DBState) (now : Nat) (collection : String)
      (query : Obj), lookupA st.stored collection = none →
      cacheFresh cfg st.cache now (cacheKey collection query) = none →
      (readOp cfg st now collection query).1 = [] := by
    intro cfg st now collection query hmiss hfresh
    unfold cacheFresh at hfresh
    unfold readOp readOp.readMiss
    dsimp only
    cases hc : lookupA st.cache (cacheKey collection query) with
    | none => simp [hc, hmiss]
    | some cached =>
        rw [hc] at hfresh
        by_cases ht : now - cached.timestamp < cfg.cacheTimeout
        · simp [ht] at hfresh
        · simp [hc, ht, hmiss]
  refine ⟨hread, ?_, ?_, ?_, ?_, ?_⟩
  · intro cfg st now collection id hmiss hfresh
    unfold readByIdOp
    dsimp only
    rw [hread cfg st now collection [("id", Value.vStr id)] hmiss hfresh]
    rfl
  · intro cfg st nowIso collection id updates hmiss
    simp only [updateOp, hmiss]
    rfl
  · intro st collection id hmiss
    simp only [deleteOp, hmiss]
    rfl
  · intro st collection hmiss
    simp only [deleteCollectionOp, hmiss]
    rfl
  · intro cfg st nowIso newId collection item e hok
    simp only [createOp] at hok
    rcases exceptBindError _ _ _ hok with h | ⟨a, ha, hf⟩
    · exact ⟨"required field missing", validateItemError _ _ _ h⟩
    · cases hf

/-- C10 witness: on the empty database with an empty cache, reading
the absent users collection yields [] and readById yields none;
update, delete and deleteCollection answer the NotFound error; and a
create that fails (here: a configuration requiring a name field, and
an item without one) fails with a ValidationError. -/
theorem c10_missing_collection_behavior_witness :
    (readOp {} ⟨[], []⟩ 0 "users" []).1 = [] ∧
    (readByIdOp {} ⟨[], []⟩ 0 "users" "1").1 = none ∧
    updateOp {} ⟨[], []⟩ "T1" "users" "1" []
      = .error (.notFound ("Collection " ++ "users" ++ " not found")) ∧
    deleteOp ⟨[], []⟩ "users" "1"
      = .error (.notFound ("Collection " ++ "users" ++ " not found")) ∧
    deleteCollectionOp ⟨[], []⟩ "users"
      = .error (.notFound ("Collection " ++ "users" ++ " not found")) ∧
    ∃ m, (DBError.validationError "required field missing") = .validationError m :=
  ⟨c10_missing_collection_behavior.1 {} ⟨[], []⟩ 0 "users" [] rfl rfl,
   c10_missing_collection_behavior.2.1 {} ⟨[], []⟩ 0 "users" "1" rfl rfl,
   c10_missing_collection_behavior.2.2.1 {} ⟨[], []⟩ "T1" "users" "1" [] rfl,
   c10_missing_collection_behavior.2.2.2.1 ⟨[], []⟩ "users" "1" rfl,
   c10_missing_collection_behavior.2.2.2.2.1 ⟨[], []⟩ "users" rfl,
   c10_missing_collection_behavior.2.2.2.2.2 ⟨300000, ["id", "name"]⟩ ⟨[], []⟩
     "T1" "u1" "users" [] (.validationError "required field missing") rfl⟩

theorem lookupA_filter_none {α : Type} (l : List (String × α)) (p : String × α → Bool)
    (key : String) (h : ∀ v, p (key, v) = false) :
    lookupA (l.filter p) key = none := by
  induction l with
  | nil => rfl
  | cons e tl ih =>
      obtain ⟨k, v⟩ := e
      by_cases hkey : k = key
      · subst hkey
        simp [List.filter_cons, h v, ih]
      · by_cases hp : p (k, v) <;> simp [List.filter_cons, hp, lookupA, hkey, ih]

theorem lookupA_filter_preserve_none {α : Type} (l : List (String × α))
    (p : String × α → Bool) (key : String) (h : lookupA l key = none) :
    lookupA (l.filter p) key = none := by
  induction l with
  | nil => rfl
  | cons e tl ih =>
      obtain ⟨k, v⟩ := e
      simp only [lookupA] at h
      by_cases hkey : k = key
      · simp [hkey] at h
      · by_cases hp : p (k, v) <;>
          simp_all [List.filter_cons, hp, lookupA, hkey]

/-- Every cache key of a collection starts with `collection + "-"`, so
clearCache removes it. -/
theorem cacheKey_startsWith (collection : String) (q : Obj) :
    jsStartsWith (cacheKey collection q) (collection ++ "-") = true := by
  simp only [jsStartsWith, cacheKey, decide_eq_true_eq]
  rw [ List.isPrefixOf_iff_prefix]
  show (collection ++ "-").toList <+: (collection ++ "-" ++ stringifyV (.vObj q)).toList
  simp only [String.toList, String.data_append]
  exact List.prefix_append _ _

theorem lookupA_clearCache_self (cache : List (String × CacheEntry))
    (collection key : String) (h : jsStartsWith key (collection ++ "-") = true) :
    lookupA (clearCache cache collection) key = none := by
  refine lookupA_filter_none _ _ _ (fun v => ?_)
  simp [h]

theorem lookupA_clearCache_preserve (cache : List (String × CacheEntry))
    (collection key : String) (h : lookupA cache key = none) :
    lookupA (clearCache cache collection) key = none :=
  lookupA_filter_preserve_none _ _ _ h

theorem lookupA_foldClear_preserve (ops : List BulkRequest)
    (cache : List (String × CacheEntry)) (key : String)
    (h : lookupA cache key = none) :
    lookupA (ops.foldl (fun c op => clearCache c op.coll) cache) key = none := by
  induction ops generalizing cache with
  | nil => exact h
  | cons hd tl ih =>
      exact ih _ (lookupA_clearCache_preserve _ _ _ h)

theorem lookupA_foldClear_mem (ops : List BulkRequest)
    (cache : List (String × CacheEntry)) (op : BulkRequest) (key : String)
    (hmem : op ∈ ops) (h : jsStartsWith key (op.coll ++ "-") = true) :
    lookupA (ops.foldl (fun c o => clearCache c o.coll) cache) key = none := by
  induction ops generalizing cache with
  | nil => cases hmem
  | cons hd tl ih =>
      rcases List.mem_cons.mp hmem with rfl | hmem2
      · exact lookupA_foldClear_preserve tl _ _ (lookupA_clearCache_self _ _ _ h)
      · exact ih (clearCache cache hd.coll) hmem2

/-- The stored record of the C5 example. -/
def c5Rec : Obj := [("id", .vStr "1"), ("age", .vNum 30)]

/-- Initial state of the C5 example: one user, empty cache. -/
def c5St0 : DBState := ⟨[("users", [c5Rec])], []⟩

/-- State after a read at time 0, which caches the collection. -/
def c5St1 : DBState := (readOp {} c5St0 0 "users" []).2

/-- The record the create of the C5 example stores. -/
def c5NewRec : Obj := [("id", .vStr "2"), ("createdAt", .vStr "T1"), ("updatedAt", .vStr "T1")]

/-- State after create on c5St1 (the id "2" is caller-supplied). -/
def c5St2 : DBState :=
  ((createOp {} c5St1 "T1" "gen" "users" [("id", .vStr "2")]).toOption.getD
    ([], ⟨[], []⟩)).2

/-- C5 counterexample: a read at time 0 caches the users collection; a
create then appends a second record but does not touch the cache; a
read at time 50 (well within the 300000 ms time-to-live) serves the
cache and returns the single stale record, not the two records now
stored: create does not invalidate the cached read results, so the
subsequent read does NOT observe the mutation, refuting the claim for
create. -/
theorem c5_counterexample :
    (readOp {} c5St0 0 "users" []).1 = [c5Rec] ∧
    (lookupA c5St2.stored "users").getD [] = [c5Rec, c5NewRec] ∧
    (readOp {} c5St2 50 "users" []).1 = [c5Rec] ∧
    ([c5Rec] : List Obj) ≠ [c5Rec, c5NewRec] := by
  refine ⟨rfl, rfl, rfl, by decide⟩

/-- C5 (amended): update, delete, deleteCollection and bulk invalidate
every cached read result of the affected collection(s) before
returning (no cache entry for any query of the collection survives);
create, however, returns with the cache exactly as it was, so a read
within the time-to-live after a create can serve a stale result. -/
theorem c5_amended_cache_invalidation :
    (∀ (cfg : Config) (st : DBState) (nowIso newId collection : String) (item : Obj)
       (r : Obj) (st' : DBState),
       createOp cfg st nowIso newId collection item = .ok (r, st') →
       st'.cache = st.cache)
  ∧ (∀ (cfg : Config) (st : DBState) (nowIso collection id : String) (updates : Obj)
       (r : Obj) (st' : DBState),
       updateOp cfg st nowIso collection id updates = .ok (r, st') →
       ∀ q : Obj, lookupA st'.cache (cacheKey collection q) = none)
  ∧ (∀ (st : DBState) (collection id : String) (r : Obj) (st' : DBState),
       deleteOp st collection id = .ok (r, st') →
       ∀ q : Obj, lookupA st'.cache (cacheKey collection q) = none)
  ∧ (∀ (st : DBState) (collection : String) (items : List Obj) (st' : DBState),
       deleteCollectionOp st collection = .ok (items, st') →
       ∀ q : Obj, lookupA st'.cache (cacheKey collection q) = none)
  ∧ (∀ (cfg : Config) (st : DBState) (nowIso : String) (ops : List BulkRequest)
       (results : List BulkResult) (st' : DBState),
       bulkOp cfg st nowIso ops = .ok (results, st') →
       ∀ op ∈ ops, ∀ q : Obj, lookupA st'.cache (cacheKey op.coll q) = none) := by
  refine ⟨?_, ?_, ?_, ?_, ?_⟩
  · intro cfg st nowIso newId collection item r st' hok
    simp only [createOp, bind, Except.bind, pure, Except.pure] at hok
    split at hok
    next e hval => cases hok
    next u hval =>
        rw [Except.ok.injEq, Prod.mk.injEq] at hok
        rw [← hok.2]
  · intro cfg st nowIso collection id updates r st' hok q
    simp only [updateOp, bind, Except.bind, pure, Except.pure] at hok
    repeat' split at hok
    all_goals first
    | (rw [Except.ok.injEq, Prod.mk.injEq] at hok
       rw [← hok.2]
       exact lookupA_clearCache_self _ _ _ (cacheKey_startsWith collection q))
    | cases hok
  · intro st collection id r st' hok q
    simp only [deleteOp] at hok
    repeat' split at hok
    all_goals first
    | (rw [Except.ok.injEq, Prod.mk.injEq] at hok
       rw [← hok.2]
       exact lookupA_clearCache_self _ _ _ (cacheKey_startsWith collection q))
    | cases hok
  · intro st collection items st' hok q
    simp only [deleteCollectionOp] at hok
    repeat' split at hok
    all_goals first
    | (rw [Except.ok.injEq, Prod.mk.injEq] at hok
       rw [← hok.2]
       exact lookupA_clearCache_self _ _ _ (cacheKey_startsWith collection q))
    | cases hok
  · intro cfg st nowIso ops results st' hok op hmem q
    simp only [bulkOp, bind, Except.bind, pure, Except.pure] at hok
    split at hok
    next e hval => cases hok
    next p hval =>
        rw [Except.ok.injEq, Prod.mk.injEq] at hok
        rw [← hok.2]
        exact lookupA_foldClear_mem ops st.cache op _ hmem (cacheKey_startsWith op.coll q)

/-- C5 witness: on the cached one-record state, the create of the
example leaves the cache unchanged; an update, a delete, a
deleteCollection and a one-request bulk each leave no cache entry for
the users collection and the empty query. -/
theorem c5_amended_cache_invalidation_witness :
    c5St2.cache = c5St1.cache ∧
    lookupA ((⟨[("users", [[("id", Value.vStr "1"), ("age", Value.vNum 31),
        ("createdAt", Value.vUndefined), ("updatedAt", Value.vStr "T1")]])], []⟩ :
        DBState).cache) (cacheKey "users" []) = none ∧
    lookupA ((⟨[("users", [])], []⟩ : DBState).cache) (cacheKey "users" []) = none :=
  ⟨c5_amended_cache_invalidation.1 {} c5St1 "T1" "gen" "users" [("id", .vStr "2")]
     c5NewRec c5St2 rfl,
   c5_amended_cache_invalidation.2.1 {} c5St1 "T1" "users" "1" [("age", .vNum 31)]
     [("id", Value.vStr "1"), ("age", Value.vNum 31), ("createdAt", Value.vUndefined),
      ("updatedAt", Value.vStr "T1")]
     ⟨[("users", [[("id", Value.vStr "1"), ("age", Value.vNum 31),
        ("createdAt", Value.vUndefined), ("updatedAt", Value.vStr "T1")]])], []⟩ rfl [],
   c5_amended_cache_invalidation.2.2.2.2 {} c5St1 "T1" [.deleteReq "users" "1"]
     [⟨"delete", true, some c5Rec, none⟩] ⟨[("users", [])], []⟩ rfl
     (.deleteReq "users" "1") (List.mem_singleton.mpr rfl) []⟩

/-- The linearly increasing sleep schedule [d*a, d*(a+1), ..., d*(m-1)]. -/
def linSleeps (d a m : Nat) : List Nat :=
  (List.range' a (m - a)).map (fun x => d * x)

theorem linSleeps_nil (d a m : Nat) (h : m ≤ a) : linSleeps d a m = [] := by
  unfold linSleeps
  rw [Nat.sub_eq_zero_of_le h]
  rfl

theorem linSleeps_cons (d a m : Nat) (h : a < m) :
    linSleeps d a m = d * a :: linSleeps d (a + 1) m := by
  unfold linSleeps
  rw [show m - a = (m - (a + 1)) + 1 by omega, List.range'_succ]
  rfl

/-- When every probe finds a fresh (non-stale) foreign lock, the
acquisition loop sleeps retryDelay * 1, retryDelay * 2, ... up to
retryDelay * (maxRetries - 1) and then fails. -/
theorem acquireLockAux_timeout (cfg : LockConfig) (probe : Nat → LockProbe)
    (hprobe : ∀ i, ∃ a, probe i = .held a ∧ ¬ a > cfg.lockTimeout) :
    ∀ (fuel retries i : Nat) (sleeps : List Nat) (clears : Nat),
      retries ≤ cfg.maxRetries →
      cfg.maxRetries - retries < fuel →
      acquireLockAux cfg probe fuel i retries sleeps clears =
        ⟨.lockTimeoutErr, sleeps.reverse ++ linSleeps cfg.retryDelay (retries + 1) cfg.maxRetries,
         clears⟩ := by
  intro fuel
  induction fuel with
  | zero => intro retries i sleeps clears hle hf; omega
  | succ fuel ih =>
      intro retries i sleeps clears hle hf
      by_cases hr : retries < cfg.maxRetries
      · obtain ⟨a, hpa, hna⟩ := hprobe i
        simp only [acquireLockAux, hr, if_true, hpa]
        simp only [hna, if_false]
        by_cases hr1 : retries + 1 < cfg.maxRetries
        · simp only [hr1, if_true]
          rw [ih (retries + 1) (i + 1) (cfg.retryDelay * (retries + 1) :: sleeps) clears
            (by omega) (by omega)]
          rw [List.reverse_cons, List.append_assoc]
          rw [linSleeps_cons cfg.retryDelay (retries + 1) cfg.maxRetries hr1]
          rfl
        · simp only [hr1, if_false]
          rw [ih (retries + 1) (i + 1) sleeps clears (by omega) (by omega)]
          rw [linSleeps_nil _ _ _ (by omega), linSleeps_nil _ _ _ (by omega)]
      · have heq : retries = cfg.maxRetries := by omega
        simp only [acquireLockAux, hr, if_false]
        rw [linSleeps_nil _ _ _ (by omega)]
        simp

/-- C6 counterexample: with maxRetries = 4 and retryDelay = 1000 and a
lock that is always held and fresh, the sleeps between attempts are
[1000, 2000, 3000] — linear growth.  An exponential backoff has a
constant ratio between consecutive delays, which forces the middle
delay squared to equal the product of its neighbors; here 2000 * 2000
= 4000000 while 1000 * 3000 = 3000000, so the backoff is not
exponential, refuting that part of the claim (the retry bound and the
failure after max attempts do hold). -/
theorem c6_counterexample :
    (acquireLock ⟨4, 1000, 30000⟩ (fun _ => .held 0) 100).sleeps = [1000, 2000, 3000] ∧
    (acquireLock ⟨4, 1000, 30000⟩ (fun _ => .held 0) 100).outcome = .lockTimeoutErr ∧
    ¬ ((2000 : Nat) * 2000 = 1000 * 3000) := by
  refine ⟨rfl, rfl, by decide⟩

/-- C6 (amended): lock acquisition retries up to the configured
maximum number of attempts with LINEARLY increasing backoff — the k-th
sleep is retryDelay * k, for k = 1 .. maxRetries - 1 — and fails with
the lock-timeout error when the lock is never acquired; a lock file
older than the staleness timeout is forcibly cleared before the loop
re-enters, without consuming a retry attempt. -/
theorem c6_amended_lock_retry_behavior :
    (∀ (cfg : LockConfig) (probe : Nat → LockProbe) (fuel : Nat),
       (∀ i, ∃ a, probe i = .held a ∧ ¬ a > cfg.lockTimeout) →
       cfg.maxRetries < fuel →
       acquireLock cfg probe fuel =
         ⟨.lockTimeoutErr, linSleeps cfg.retryDelay 1 cfg.maxRetries, 0⟩)
  ∧ (∀ (cfg : LockConfig) (probe : Nat → LockProbe) (fuel i retries : Nat)
       (sleeps : List Nat) (clears : Nat) (age : Int),
       retries < cfg.maxRetries →
       probe i = .held age →
       age > cfg.lockTimeout →
       acquireLockAux cfg probe (fuel + 1) i retries sleeps clears =
         acquireLockAux cfg probe fuel (i + 1) retries sleeps (clears + 1)) := by
  constructor
  · intro cfg probe fuel hprobe hfuel
    unfold acquireLock
    rw [acquireLockAux_timeout cfg probe hprobe fuel 0 0 [] 0 (by omega) (by omega)]
    rfl
  · intro cfg probe fuel i retries sleeps clears age hr hpa hage
    simp only [acquireLockAux, hr, if_true, hpa, hage, if_true]

/-- C6 witness: the amended theorem applied to maxRetries = 4 and
retryDelay = 1000 with an always-held fresh lock (the failing run
sleeps 1000, 2000, 3000 ms), and to a stale lock of age 40000 ms with
timeout 30000 ms (cleared without consuming a retry). -/
theorem c6_amended_lock_retry_behavior_witness :
    acquireLock ⟨4, 1000, 30000⟩ (fun _ => .held 0) 5
      = ⟨.lockTimeoutErr, linSleeps 1000 1 4, 0⟩ ∧
    acquireLockAux ⟨4, 1000, 30000⟩ (fun _ => .held 40000) 1 0 0 [] 0
      = acquireLockAux ⟨4, 1000, 30000⟩ (fun _ => .held 40000) 0 1 0 [] 1 :=
  ⟨c6_amended_lock_retry_behavior.1 ⟨4, 1000, 30000⟩ (fun _ => .held 0) 5
     (fun i => ⟨0, rfl, by decide⟩) (by decide),
   c6_amended_lock_retry_behavior.2 ⟨4, 1000, 30000⟩ (fun _ => .held 40000) 0 0 0 [] 0
     40000 (by decide) rfl (by decide)⟩
